import Mathlib

/-!
# FlowGraph verifier — shallow embedding and verification

This file embeds the core of the FlowGraph CLI (`flowgraph verify`,
`flowgraph verify --impact`) in Lean 4: the location resolver, the per-kind
node verifiers, the edge verifiers, the flow verifier, the invariant
verifier, the result aggregator / exit code, and the impact analyzer.

Modelling conventions:
- JavaScript strings are Lean `String`; single-character `split`/`join` are
  reimplemented over `List Char` (`jsSplit`/`jsJoinCh`) with the same
  semantics as `String.prototype.split` on a one-character separator.
- The file system is an association list from absolute path to content;
  `readSource` is the `readFileSync`-with-catch wrapper (`none` = unreadable).
- `path.resolve(projectRoot, root, p)` is abstracted by `joinPath`, a plain
  "/"-join: no claim depends on path normalization or absolute-path handling.
- JavaScript regular expressions used by the verifiers are compiled, by hand,
  to a small nondeterministic matcher (`Rx`). `RegExp.test` is match
  existence, which for the pure regexes in this program (no lookaround, no
  backreferences) coincides with the nondeterministic semantics. `\s` and
  case folding are modelled on ASCII, the only range exercised here.
- JavaScript truthiness of optional string fields is `truthyStr`
  (absent or `""` are falsy); a parsed line number of `0` is falsy.
- The global mutable `results` array is replaced by verifiers returning
  `List Rec` in push order.
-/

namespace FG

/-! ## String utilities -/

def isWordChar (c : Char) : Bool := c.isAlphanum || c = '_'

/-- ASCII portion of the JavaScript `\s` class. -/
def isSpaceChar (c : Char) : Bool :=
  c = ' ' || c = '\t' || c = '\n' || c = '\r' || c = '\x0b' || c = '\x0c'

/-- `s.split(c)` on a single-character separator, accumulator form. -/
def splitChAux (c : Char) : List Char → List Char → List (List Char)
  | [], acc => [acc.reverse]
  | x :: xs, acc =>
    if x = c then acc.reverse :: splitChAux c xs []
    else splitChAux c xs (x :: acc)

def jsSplit (c : Char) (s : String) : List String :=
  (splitChAux c s.data []).map (fun l => String.mk l)

/-- `parts.join(c)` on a single-character separator, over `List Char`. -/
def joinCh (c : Char) : List (List Char) → List Char
  | [] => []
  | [x] => x
  | x :: y :: rest => x ++ c :: joinCh c (y :: rest)

def jsJoinCh (c : Char) (parts : List String) : String :=
  String.mk (joinCh c (parts.map String.data))

/-- `parts.join(sep)` for a multi-character separator. -/
def joinWith (sep : String) : List String → String
  | [] => ""
  | [s] => s
  | s :: rest => s ++ sep ++ joinWith sep rest

/-- `sub` occurs as a contiguous run somewhere in `big`. -/
def includesAux (sub : List Char) : List Char → Bool
  | [] => sub.isEmpty
  | c :: cs => sub.isPrefixOf (c :: cs) || includesAux sub cs

/-- `source.includes(sub)`. -/
def includes (s sub : String) : Bool := includesAux sub.data s.data

/-- `s.replace(pat, "")` with a plain-string pattern: remove the first
occurrence of `pat`, if any. -/
def removeFirstAux (pat : List Char) : List Char → List Char
  | [] => []
  | c :: cs =>
    if pat.isPrefixOf (c :: cs) then (c :: cs).drop pat.length
    else c :: removeFirstAux pat cs

def replaceFirst (s pat : String) : String :=
  String.mk (removeFirstAux pat.data s.data)

/-- `/^\d+$/.test s`. -/
def allDigits (s : String) : Bool := !s.data.isEmpty && s.data.all Char.isDigit

/-- `parseInt` on an all-digits string. -/
def digitsToNat (s : String) : Nat :=
  s.data.foldl (fun a c => 10 * a + (c.toNat - '0'.toNat)) 0

/-- First index of `c` in `s` (`s.indexOf(c)`), as an `Option`. -/
def indexOfChar (c : Char) (s : String) : Option Nat :=
  s.data.findIdx? (fun x => x = c)

def toLowerStr (s : String) : String := String.mk (s.data.map Char.toLower)

/-! ### Split/join roundtrip -/

theorem splitChAux_ne_nil (c : Char) (l acc : List Char) :
    splitChAux c l acc ≠ [] := by
  induction l generalizing acc with
  | nil => simp [splitChAux]
  | cons x xs ih =>
    simp only [splitChAux]
    split
    · simp
    · exact ih _

theorem joinCh_splitChAux (c : Char) (l acc : List Char) :
    joinCh c (splitChAux c l acc) = acc.reverse ++ l := by
  induction l generalizing acc with
  | nil => simp [splitChAux, joinCh]
  | cons x xs ih =>
    simp only [splitChAux]
    by_cases hx : x = c
    · simp only [hx, if_pos rfl]
      have hne := splitChAux_ne_nil c xs ([] : List Char)
      rcases hsplit : splitChAux c xs [] with _ | ⟨y, ys⟩
      · exact absurd hsplit hne
      · have := ih ([] : List Char)
        rw [hsplit] at this
        simp only [joinCh, List.reverse_nil, List.nil_append] at this ⊢
        rw [this]
    · rw [if_neg hx]
      rw [ih (x :: acc)]
      simp

theorem jsJoinCh_jsSplit (c : Char) (s : String) :
    jsJoinCh c (jsSplit c s) = s := by
  unfold jsJoinCh jsSplit
  rw [List.map_map]
  have : (String.data ∘ fun l => String.mk l) = id := by
    funext l; rfl
  rw [this, List.map_id, joinCh_splitChAux]
  rfl

/-! ## Regex engine

`Rx` covers exactly the constructs used by the verifier's regexes: literals
(optionally case-insensitive), single-character classes, `*`/`+` over a
character class, alternation, sequencing, `?`, and the `\b` word boundary.
`Rx.run` returns every possible machine state `(previous character, rest)`
after a match starting at the current position; `rxTest` is
`RegExp.prototype.test` (a match starting anywhere). -/

def charEqCI (ci : Bool) (p c : Char) : Bool :=
  if ci then p.toLower = c.toLower else p = c

inductive Rx where
  | lit (s : String) (ci : Bool)
  | cls (f : Char → Bool)
  | clsStar (f : Char → Bool)
  | clsPlus (f : Char → Bool)
  | alt (a b : Rx)
  | seq (a b : Rx)
  | opt (r : Rx)
  | wb
  | eps

/-- Match a literal, tracking the last consumed character. -/
def litRun (ci : Bool) : List Char → Option Char → List Char →
    Option (Option Char × List Char)
  | [], prev, rest => some (prev, rest)
  | p :: ps, _, c :: cs =>
    if charEqCI ci p c then litRun ci ps (some c) cs else none
  | _ :: _, _, [] => none

/-- All states after consuming zero or more characters of class `f`. -/
def clsStarRun (f : Char → Bool) (prev : Option Char) :
    List Char → List (Option Char × List Char)
  | [] => [(prev, [])]
  | c :: cs =>
    (prev, c :: cs) :: (if f c then clsStarRun f (some c) cs else [])

def Rx.run : Rx → Option Char → List Char → List (Option Char × List Char)
  | .lit s ci, prev, rest => (litRun ci s.data prev rest).toList
  | .cls _, _, [] => []
  | .cls f, _, c :: cs => if f c then [(some c, cs)] else []
  | .clsStar f, prev, rest => clsStarRun f prev rest
  | .clsPlus _, _, [] => []
  | .clsPlus f, _, c :: cs => if f c then clsStarRun f (some c) cs else []
  | .alt a b, prev, rest => a.run prev rest ++ b.run prev rest
  | .seq a b, prev, rest =>
    (a.run prev rest).flatMap (fun st => b.run st.1 st.2)
  | .opt r, prev, rest => (prev, rest) :: r.run prev rest
  | .wb, prev, rest =>
    let pw := match prev with | some c => isWordChar c | none => false
    let nw := match rest with | c :: _ => isWordChar c | [] => false
    if pw ≠ nw then [(prev, rest)] else []
  | .eps, prev, rest => [(prev, rest)]

/-- Does `r` match starting at some position of the remaining input? -/
def rxSearch (r : Rx) (prev : Option Char) : List Char → Bool
  | [] => !(r.run prev []).isEmpty
  | c :: cs => !(r.run prev (c :: cs)).isEmpty || rxSearch r (some c) cs

/-- `new RegExp(...).test(s)`. -/
def rxTest (r : Rx) (s : String) : Bool := rxSearch r none s.data

/-- `r1|r2|...` over a non-empty list (left-assoc is irrelevant to `test`). -/
def altList : List Rx → Rx
  | [] => .eps
  | [r] => r
  | r :: rest => .alt r (altList rest)

def seqList : List Rx → Rx
  | [] => .eps
  | [r] => r
  | r :: rest => .seq r (seqList rest)

/-- `\s+` / `\s*`. -/
def wsPlus : Rx := .clsPlus isSpaceChar
def wsStar : Rx := .clsStar isSpaceChar

/-- `.` in a JavaScript regex: any character but a line terminator. -/
def dotCls (c : Char) : Bool := c ≠ '\n' && c ≠ '\r'

def dotStar : Rx := .clsStar dotCls

/-- The quote class `['"`]`. -/
def quoteCls (c : Char) : Bool := c = '\'' || c = '"' || c = '`'

/-! ## Data model -/

/-- A node record.  `kind` and `loc` are the required fields; the optional
metadata fields that the verifiers inspect are `schema`, `values`
(`Array.isArray(node.values)` is modelled as `values = some _`) and `fk`.
The other optional fields (`payload`, `request`, ...) are never read by the
verifiers and are omitted. -/
structure Node where
  kind : String
  loc : String
  schema : Option String := none
  values : Option (List String) := none
  fk : Option (List String) := none
deriving DecidableEq, Repr

/-- An edge record.  `from`/`then` are Lean keywords, hence `fromId`/`toId`.
`_comment` carries the JSON-comment convention honoured by
`runVerification` and `runImpactAnalysis`. -/
structure Edge where
  fromId : String
  toId : String
  rel : String
  note : Option String := none
  _comment : Option String := none
deriving DecidableEq, Repr

/-- A step's `then` value: a plain string (`"next"`, `"DONE"`, `"FAIL"` or a
node-id jump) or a condition-label → target mapping.  Only the mapping form
satisfies `typeof step.then === "object" && step.then !== null`. -/
inductive ThenVal where
  | str (s : String)
  | branch (entries : List (String × String))
deriving DecidableEq, Repr

structure Step where
  node : String
  thenV : ThenVal
deriving DecidableEq, Repr

structure Flow where
  trigger : String := ""
  steps : List Step
deriving DecidableEq, Repr

structure Invariant where
  id : String
  rule : String := ""
  scope : Option (List String) := none
  enforce : Option String := none
deriving DecidableEq, Repr

/-- The loaded flowgraph document.  `nodes` and `flows` are JSON objects:
association lists in insertion order with unique keys.  `metaRoot` is
`meta.root`; the verifier reads it as `meta.root || ""`. -/
structure Flowgraph where
  nodes : List (String × Node)
  edges : List Edge
  flows : List (String × Flow)
  invariants : List Invariant
  metaRoot : Option String := none
deriving DecidableEq, Repr

/-- JavaScript truthiness of an optional string field. -/
def truthyStr : Option String → Bool
  | some s => s != ""
  | none => false

/-- `meta.root || ""`. -/
def Flowgraph.root (doc : Flowgraph) : String :=
  match doc.metaRoot with
  | some s => if s = "" then "" else s
  | none => ""

/-- `nodes[id]` on the JSON object. -/
def lookupNode (nodes : List (String × Node)) (id : String) : Option Node :=
  match nodes with
  | [] => none
  | (k, v) :: rest => if k = id then some v else lookupNode rest id

/-- The file system: path → content, `none` meaning unreadable. -/
def Fs : Type := List (String × String)

/-- `readFileSync` wrapped in try/catch (`readSource`). -/
def readSource (fs : Fs) (p : String) : Option String :=
  match fs with
  | [] => none
  | (k, v) :: rest => if k = p then some v else readSource rest p

/-- Result records.  `record(status, category, id, message)`. -/
inductive Status where
  | PASS
  | FAIL
  | WARN
deriving DecidableEq, Repr

structure Rec where
  status : Status
  category : String
  id : String
  message : String
deriving DecidableEq, Repr

def statuses (rs : List Rec) : List Status := rs.map (fun r => r.status)

/-! ## Location resolver -/

structure ResolvedLoc where
  filePath : String
  line : Option Nat
deriving DecidableEq, Repr

/-- Stand-in for `path.resolve(projectRoot, root, p)`: plain "/" joining.
Absolute-path handling and normalization are not modelled; every claim is
insensitive to the concrete shape of the joined path. -/
def joinPath (projectRoot root p : String) : String :=
  projectRoot ++ "/" ++ root ++ "/" ++ p

/-- `resolveLoc(loc, root, projectRoot)`: if the location splits on `":"`
into more than one part and the last part is all digits, pop it as the line
number and rejoin the rest; otherwise the whole string is the path. -/
def resolveLoc (loc root projectRoot : String) : ResolvedLoc :=
  let parts := jsSplit ':' loc
  if parts.length > 1 ∧ allDigits (parts.getLastD "") = true then
    { filePath := joinPath projectRoot root (jsJoinCh ':' parts.dropLast)
      line := some (digitsToNat (parts.getLastD "")) }
  else
    { filePath := joinPath projectRoot root (jsJoinCh ':' parts)
      line := none }

/-- Is the parsed line number truthy (`if (line)`)?  `0` is falsy. -/
def lineTruthy : Option Nat → Bool
  | some n => n != 0
  | none => false

/-- `getRegion(source, lineNum, radius)`: the window of lines
`[lineNum-1-radius, lineNum-1+radius)` rejoined with newlines.  The start
clamps at `0` exactly as `Math.max(0, ·)` does; the end uses
`lineNum + radius - 1`, which agrees with the JavaScript
`lineNum - 1 + radius` for every `lineNum ≥ 0` since `radius ≥ 1`. -/
def getRegion (source : String) (lineNum : Nat) (radius : Nat) : String :=
  let lines := jsSplit '\n' source
  let start : Nat := lineNum - 1 - radius
  let stop : Nat := min lines.length (lineNum + radius - 1)
  jsJoinCh '\n' ((lines.take stop).drop start)

/-! ## Node verifiers

The identifiers interpolated into the regexes go through `esc`, which makes
them literal; they are compiled to `.lit` atoms. -/

def rlit (s : String) : Rx := .lit s false

def rlitCI (s : String) : Rx := .lit s true

/-- The four patterns of `verifyTypeNode`.  In the fourth, `[:\(\b]` is a
character class, inside which `\b` denotes the backspace character. -/
def typePatterns (typeName : String) : List Rx :=
  [ seqList [altList [rlit "interface", rlit "type", rlit "enum",
      rlit "class", rlit "struct"], wsPlus, rlit typeName, .wb],
    seqList [altList [rlit "const", rlit "export const", rlit "let",
      rlit "var"], wsPlus, rlit (typeName ++ "Schema"), wsStar, rlit "="],
    seqList [altList [rlit "const", rlit "export const", rlit "let",
      rlit "var"], wsPlus, rlit typeName, wsStar, rlit "="],
    seqList [altList [rlit "def", rlit "class"], wsPlus, rlit typeName,
      .cls (fun c => c = ':' || c = '(' || c = '\x08')] ]

def verifyTypeNode (id : String) (node : Node) (root projectRoot : String)
    (fs : Fs) : List Rec :=
  let rl := resolveLoc node.loc root projectRoot
  match readSource fs rl.filePath with
  | none => [Rec.mk .FAIL "structural" id ("File not found: " ++ node.loc)]
  | some source =>
    let typeName := replaceFirst id "type:"
    let pats := typePatterns typeName
    if !(pats.any (fun p => rxTest p source)) then
      [Rec.mk .FAIL "structural" id
        ("Type '" ++ typeName ++ "' not found in " ++ node.loc)]
    else
      let existRec :=
        if lineTruthy rl.line then
          let line := rl.line.getD 0
          if pats.any (fun p => rxTest p (getRegion source line 5)) then
            Rec.mk .PASS "structural" id ("Found at " ++ node.loc)
          else
            Rec.mk .WARN "structural" id
              ("Found in file but not near line " ++ Nat.repr line)
        else Rec.mk .PASS "structural" id ("Found in " ++ node.loc)
      let schemaRecs :=
        if truthyStr node.schema && !(includes source (node.schema.getD "")) then
          [Rec.mk .FAIL "structural" id
            ("Schema '" ++ node.schema.getD "" ++ "' not found")]
        else []
      let valueRecs :=
        match node.values with
        | some vs => vs.filterMap (fun v =>
            if includes source v then none
            else some (Rec.mk .FAIL "structural" id
              ("Enum value '" ++ v ++ "' not found")))
        | none => []
      existRec :: (schemaRecs ++ valueRecs)

/-- The five patterns of `verifyMethodNode`. -/
def methodPatterns (methodName : String) : List Rx :=
  [ seqList [.opt (seqList [rlit "async", wsPlus]), rlit methodName, wsStar,
      rlit "("],
    seqList [altList [rlit "private", rlit "public", rlit "protected"],
      wsPlus, .opt (seqList [rlit "async", wsPlus]), rlit methodName, wsStar,
      rlit "("],
    seqList [rlit "def", wsPlus, rlit methodName, wsStar, rlit "("],
    seqList [rlit "func", wsPlus, rlit methodName, wsStar, rlit "("],
    seqList [rlit "fn", wsPlus, rlit methodName, wsStar,
      .cls (fun c => c = '<' || c = '(')] ]

def verifyMethodNode (id : String) (node : Node) (root projectRoot : String)
    (fs : Fs) : List Rec :=
  let rl := resolveLoc node.loc root projectRoot
  match readSource fs rl.filePath with
  | none => [Rec.mk .FAIL "structural" id ("File not found: " ++ node.loc)]
  | some source =>
    let fullName := replaceFirst id "method:"
    let methodName := (jsSplit '.' fullName).getLastD ""
    let pats := methodPatterns methodName
    if !(pats.any (fun p => rxTest p source)) then
      [Rec.mk .FAIL "structural" id
        ("Method '" ++ methodName ++ "' not found in " ++ node.loc)]
    else if lineTruthy rl.line then
      let line := rl.line.getD 0
      if pats.any (fun p => rxTest p (getRegion source line 5)) then
        [Rec.mk .PASS "structural" id ("Found at " ++ node.loc)]
      else
        [Rec.mk .WARN "structural" id
          ("Method found but not near line " ++ Nat.repr line)]
    else [Rec.mk .PASS "structural" id ("Found in " ++ node.loc)]

/-- `CREATE TABLE\s+(IF NOT EXISTS\s+)?NAME\b`, case-insensitive. -/
def tablePattern (tableName : String) : Rx :=
  seqList [rlitCI "CREATE TABLE", wsPlus,
    .opt (seqList [rlitCI "IF NOT EXISTS", wsPlus]), rlitCI tableName, .wb]

/-- The `fk.match` against the arrow pattern `"-> (\w+)"`: the first
`"-> "` followed by at least one word character yields the maximal
word-character run after it. -/
def fkTargetAux : List Char → Option (List Char)
  | [] => none
  | c :: rest =>
    if c = '-' then
      match rest with
      | '>' :: ' ' :: rest2 =>
        let run := rest2.takeWhile isWordChar
        if run.isEmpty then fkTargetAux rest else some run
      | _ => fkTargetAux rest
    else fkTargetAux rest

def fkTarget (fk : String) : Option String :=
  (fkTargetAux fk.data).map (fun l => String.mk l)

def verifyTableNode (id : String) (node : Node) (root projectRoot : String)
    (fs : Fs) : List Rec :=
  let rl := resolveLoc node.loc root projectRoot
  match readSource fs rl.filePath with
  | none => [Rec.mk .FAIL "structural" id ("File not found: " ++ node.loc)]
  | some source =>
    let tableName := replaceFirst id "table:"
    if !(rxTest (tablePattern tableName) source) then
      [Rec.mk .FAIL "structural" id
        ("CREATE TABLE '" ++ tableName ++ "' not found")]
    else
      Rec.mk .PASS "structural" id "Table found" ::
      (match node.fk with
       | some fks => fks.filterMap (fun fk =>
           match fkTarget fk with
           | some t =>
             if includes source t then none
             else some (Rec.mk .WARN "structural" id
               ("FK to '" ++ t ++ "' not in DDL"))
           | none => none)
       | none => [])

/-- The two route patterns of `verifyEndpointNode`. -/
def routePatterns (httpMethod path : String) : List Rx :=
  [ seqList [rlit ".", rlit httpMethod, wsStar, rlit "(", wsStar,
      .cls quoteCls, rlit path, .cls quoteCls],
    seqList [rlit httpMethod, dotStar, rlit path] ]

def verifyEndpointNode (id : String) (node : Node) (root projectRoot : String)
    (fs : Fs) : List Rec :=
  let rl := resolveLoc node.loc root projectRoot
  match readSource fs rl.filePath with
  | none => [Rec.mk .FAIL "structural" id ("File not found: " ++ node.loc)]
  | some source =>
    let endpointStr := replaceFirst id "endpoint:"
    match indexOfChar ' ' endpointStr with
    | none =>
      if includes source endpointStr then
        [Rec.mk .PASS "structural" id "Endpoint reference found"]
      else
        [Rec.mk .FAIL "structural" id
          ("Endpoint '" ++ endpointStr ++ "' not found")]
    | some spaceIdx =>
      let httpMethod := toLowerStr (String.mk (endpointStr.data.take spaceIdx))
      let path := String.mk (endpointStr.data.drop (spaceIdx + 1))
      let pats := routePatterns httpMethod path
      if pats.any (fun p => rxTest p source) then
        if lineTruthy rl.line then
          let line := rl.line.getD 0
          if pats.any (fun p => rxTest p (getRegion source line 10)) then
            [Rec.mk .PASS "structural" id ("Route found at " ++ node.loc)]
          else
            [Rec.mk .WARN "structural" id
              ("Route in file but not near line " ++ Nat.repr line)]
        else [Rec.mk .PASS "structural" id ("Route found in " ++ node.loc)]
      else
        [Rec.mk .FAIL "structural" id
          ("Route '" ++ httpMethod ++ " " ++ path ++ "' not found")]

/-- The quoted-literal pattern of `verifyEventNode`. -/
def eventQuotedPattern (name : String) : Rx :=
  seqList [.cls quoteCls, rlit name, .cls quoteCls]

def verifyEventNode (id : String) (node : Node) (root projectRoot : String)
    (fs : Fs) : List Rec :=
  let rl := resolveLoc node.loc root projectRoot
  match readSource fs rl.filePath with
  | none => [Rec.mk .FAIL "structural" id ("File not found: " ++ node.loc)]
  | some source =>
    let eventName := replaceFirst id "event:"
    if rxTest (eventQuotedPattern eventName) source ||
        includes source eventName then
      [Rec.mk .PASS "structural" id ("Event '" ++ eventName ++ "' found")]
    else
      [Rec.mk .FAIL "structural" id ("Event '" ++ eventName ++ "' not found")]

/-- The fallback for a custom `kind`: file existence only. -/
def verifyCustomNode (id : String) (node : Node) (root projectRoot : String)
    (fs : Fs) : List Rec :=
  let rl := resolveLoc node.loc root projectRoot
  match readSource fs rl.filePath with
  | some _ => [Rec.mk .PASS "structural" id ("File exists at " ++ node.loc)]
  | none => [Rec.mk .FAIL "structural" id ("File not found: " ++ node.loc)]

/-- The `nodeVerifiers` dispatch table of `runVerification`. -/
def verifyNodeDispatch (root projectRoot : String) (fs : Fs)
    (entry : String × Node) : List Rec :=
  match entry.2.kind with
  | "type" => verifyTypeNode entry.1 entry.2 root projectRoot fs
  | "method" => verifyMethodNode entry.1 entry.2 root projectRoot fs
  | "table" => verifyTableNode entry.1 entry.2 root projectRoot fs
  | "endpoint" => verifyEndpointNode entry.1 entry.2 root projectRoot fs
  | "event" => verifyEventNode entry.1 entry.2 root projectRoot fs
  | _ => verifyCustomNode entry.1 entry.2 root projectRoot fs

/-! ## Edge verifier -/

/-- `SCHEMA\.(parse|safeParse|validate)\s*\(` and `SCHEMA\.check\s*\(`. -/
def validationPatterns (schemaName : String) : List Rx :=
  [ seqList [rlit schemaName, rlit ".",
      altList [rlit "parse", rlit "safeParse", rlit "validate"], wsStar,
      rlit "("],
    seqList [rlit schemaName, rlit ".", rlit "check", wsStar, rlit "("] ]

/-- The two `writes`/`reads` patterns: a case-insensitive DML statement
naming the table, or any quoted string containing the name
(case-sensitive). -/
def dbPatterns (tableName : String) : List Rx :=
  [ seqList [altList [rlitCI "INSERT INTO", rlitCI "UPDATE",
      rlitCI "DELETE FROM", seqList [rlitCI "SELECT", dotStar, rlitCI "FROM"]],
      wsPlus, rlitCI tableName],
    seqList [.cls quoteCls, dotStar, rlit tableName, dotStar, .cls quoteCls] ]

def verifyEdge (edge : Edge) (nodes : List (String × Node))
    (root projectRoot : String) (fs : Fs) : List Rec :=
  let edgeId := edge.fromId ++ " -[" ++ edge.rel ++ "]-> " ++ edge.toId
  match lookupNode nodes edge.fromId with
  | none => [Rec.mk .FAIL "relational" edgeId "Source node missing"]
  | some fromNode =>
    match lookupNode nodes edge.toId with
    | none => [Rec.mk .FAIL "relational" edgeId "Target node missing"]
    | some toNode =>
      match readSource fs (resolveLoc fromNode.loc root projectRoot).filePath with
      | none => [Rec.mk .FAIL "relational" edgeId "Source file not found"]
      | some source =>
        match edge.rel with
        | "co_change" =>
          [Rec.mk .PASS "relational" edgeId
            ("Co-change contract" ++
              (if truthyStr edge.note then ": " ++ edge.note.getD "" else ""))]
        | "validates" =>
          if truthyStr toNode.schema then
            let schemaName := toNode.schema.getD ""
            if (validationPatterns schemaName).any (fun p => rxTest p source) then
              [Rec.mk .PASS "relational" edgeId
                (schemaName ++ " validation found")]
            else
              [Rec.mk .FAIL "relational" edgeId
                ("No " ++ schemaName ++ " validation call")]
          else [Rec.mk .WARN "relational" edgeId "No schema declared on target"]
        | "calls" =>
          let methodName :=
            (jsSplit '.' (replaceFirst edge.toId "method:")).getLastD ""
          if rxTest (seqList [rlit methodName, wsStar, rlit "("]) source then
            [Rec.mk .PASS "relational" edgeId "Call site found"]
          else
            [Rec.mk .FAIL "relational" edgeId
              ("No call to '" ++ methodName ++ "'")]
        | "writes" =>
          let tableName := replaceFirst edge.toId "table:"
          if (dbPatterns tableName).any (fun p => rxTest p source) then
            [Rec.mk .PASS "relational" edgeId
              ("DB op on '" ++ tableName ++ "' found")]
          else
            [Rec.mk .WARN "relational" edgeId "No direct DB op (may be indirect)"]
        | "reads" =>
          let tableName := replaceFirst edge.toId "table:"
          if (dbPatterns tableName).any (fun p => rxTest p source) then
            [Rec.mk .PASS "relational" edgeId
              ("DB op on '" ++ tableName ++ "' found")]
          else
            [Rec.mk .WARN "relational" edgeId "No direct DB op (may be indirect)"]
        | "emits" =>
          let eventName := replaceFirst edge.toId "event:"
          if rxTest (eventQuotedPattern eventName) source then
            [Rec.mk .PASS "relational" edgeId
              ("Event '" ++ eventName ++ "' referenced")]
          else
            [Rec.mk .FAIL "relational" edgeId
              ("No reference to '" ++ eventName ++ "'")]
        | "listens" =>
          let eventName := replaceFirst edge.toId "event:"
          if rxTest (eventQuotedPattern eventName) source then
            [Rec.mk .PASS "relational" edgeId
              ("Listener for '" ++ eventName ++ "' found")]
          else
            [Rec.mk .WARN "relational" edgeId
              ("No listener for '" ++ eventName ++ "'")]
        | _ =>
          [Rec.mk .PASS "relational" edgeId
            ("Relation '" ++ edge.rel ++ "' accepted")]

/-! ## Flow verifier -/

def nonTerminal (t : String) : Bool :=
  t != "next" && t != "DONE" && t != "FAIL"

def isBranch : ThenVal → Bool
  | .branch _ => true
  | .str _ => false

/-- The `missing` list accumulated by the existence pass of `verifyFlows`,
in push order: per step, the step's own node when absent, then each branch
target of a mapping `then` that is non-terminal and absent.  A plain-string
`then` is not an object, so its value is never inspected. -/
def flowMissing (nodes : List (String × Node)) (flow : Flow) : List String :=
  flow.steps.flatMap (fun step =>
    (if (lookupNode nodes step.node).isNone then [step.node] else []) ++
    (match step.thenV with
     | .branch entries => entries.filterMap (fun ct =>
         if nonTerminal ct.2 && (lookupNode nodes ct.2).isNone then some ct.2
         else none)
     | .str _ => []))

/-- The WARN records pushed by the reachability pass of `verifyFlows`, in
push order: one per branch-mapping entry whose non-terminal target is not
the `node` of any step of this flow. -/
def flowWarns (name : String) (flow : Flow) : List Rec :=
  flow.steps.flatMap (fun step =>
    match step.thenV with
    | .branch entries => entries.filterMap (fun ct =>
        if nonTerminal ct.2 && !(flow.steps.any (fun s => s.node == ct.2)) then
          some (Rec.mk .WARN "flow" name
            ("'" ++ ct.1 ++ "' -> '" ++ ct.2 ++ "' not in step list"))
        else none)
    | .str _ => [])

/-- The body of the `verifyFlows` loop for one `[name, flow]` entry, in push
order: the existence record, then one WARN per unreachable branch target,
then the reachability PASS when there was no WARN (`allReachable`). -/
def verifyFlowOne (nodes : List (String × Node)) (entry : String × Flow) :
    List Rec :=
  let name := entry.1
  let flow := entry.2
  let missing := flowMissing nodes flow
  let existRec :=
    if missing.isEmpty then
      Rec.mk .PASS "flow" name
        ("All " ++ Nat.repr flow.steps.length ++ " step nodes exist")
    else Rec.mk .FAIL "flow" name ("Missing nodes: " ++ joinWith ", " missing)
  let warns := flowWarns name flow
  existRec :: (warns ++
    (if warns.isEmpty then
      [Rec.mk .PASS "flow" name "All branch targets reachable"] else []))

def verifyFlows (flows : List (String × Flow))
    (nodes : List (String × Node)) : List Rec :=
  flows.flatMap (verifyFlowOne nodes)

/-! ## Invariant verifier -/

def verifyInvariants (invariants : List Invariant)
    (nodes : List (String × Node)) (root projectRoot : String) (fs : Fs) :
    List Rec :=
  invariants.map (fun inv =>
    let scope := inv.scope.getD []
    let missingNodes := scope.filter (fun s => (lookupNode nodes s).isNone)
    if !missingNodes.isEmpty then
      Rec.mk .FAIL "invariant" inv.id
        ("Scoped nodes missing: " ++ joinWith ", " missingNodes)
    else
      let scopeNodes := scope.filterMap (lookupNode nodes)
      let allFilesExist := scopeNodes.all (fun n =>
        (readSource fs (resolveLoc n.loc root projectRoot).filePath).isSome)
      if !allFilesExist then
        Rec.mk .FAIL "invariant" inv.id "Some scoped files not found"
      else
        Rec.mk .WARN "invariant" inv.id
          (inv.rule ++ " — requires manual/custom verification" ++
            (if truthyStr inv.enforce then
              " [enforce: " ++ inv.enforce.getD "" ++ "]" else "")))

/-! ## Full verification and exit status -/

/-- The relational phase of `runVerification`: every edge in order, edges
with a truthy `_comment` skipped without a record. -/
def edgePhase (edges : List Edge) (nodes : List (String × Node))
    (root projectRoot : String) (fs : Fs) : List Rec :=
  edges.flatMap (fun e =>
    if truthyStr e._comment then []
    else verifyEdge e nodes root projectRoot fs)

/-- `runVerification`, returning the accumulated `results` in push order:
structural phase over every node, relational phase over every edge, flow
phase, invariant phase. -/
def runVerification (doc : Flowgraph) (projectRoot : String) (fs : Fs) :
    List Rec :=
  let root := doc.root
  (doc.nodes.flatMap (verifyNodeDispatch root projectRoot fs)) ++
  edgePhase doc.edges doc.nodes root projectRoot fs ++
  verifyFlows doc.flows doc.nodes ++
  verifyInvariants doc.invariants doc.nodes root projectRoot fs

def failCount (rs : List Rec) : Nat :=
  (rs.filter (fun r => r.status == Status.FAIL)).length

/-- The process exit status of `verify`: `process.exit(1)` when any FAIL
record exists, otherwise the process ends normally with status `0`. -/
def verifyExitCode (doc : Flowgraph) (projectRoot : String) (fs : Fs) : Nat :=
  if failCount (runVerification doc projectRoot fs) > 0 then 1 else 0

/-! ## Impact analyzer -/

structure FlowHit where
  name : String
  flow : Flow
  inFlow : Bool
  branchTarget : Bool
deriving DecidableEq, Repr

structure ImpactReport where
  outgoing : List Edge
  incoming : List Edge
  flowHits : List FlowHit
  invariantHits : List Invariant
deriving DecidableEq, Repr

/-- The outcome of `verify --impact <id>`: either the distinguished
not-found outcome (the sorted list of known node ids is printed and the
process exits with status 1), or the computed direct-neighbour report. -/
inductive ImpactResult where
  | notFound (knownIds : List String)
  | found (report : ImpactReport)
deriving DecidableEq, Repr

def runImpactAnalysis (nodeId : String) (doc : Flowgraph) : ImpactResult :=
  let edges := doc.edges.filter (fun e => !truthyStr e._comment)
  match lookupNode doc.nodes nodeId with
  | none =>
    .notFound ((doc.nodes.map Prod.fst).mergeSort (fun a b => a ≤ b))
  | some _ =>
    .found
      { outgoing := edges.filter (fun e => e.fromId == nodeId)
        incoming := edges.filter (fun e => e.toId == nodeId)
        flowHits := doc.flows.filterMap (fun nf =>
          let inFlow := nf.2.steps.any (fun s => s.node == nodeId)
          let branchTarget := nf.2.steps.any (fun s =>
            match s.thenV with
            | .branch entries => entries.any (fun ct => ct.2 == nodeId)
            | .str _ => false)
          if inFlow || branchTarget then
            some ⟨nf.1, nf.2, inFlow, branchTarget⟩
          else none)
        invariantHits := doc.invariants.filter (fun inv =>
          (inv.scope.getD []).contains nodeId) }

/-! ## Helper lemmas -/

theorem filterMap_if {α β : Type} (p : α → Bool) (g : α → β) :
    ∀ l : List α,
      l.filterMap (fun x => if p x then some (g x) else none) =
      (l.filter p).map g
  | [] => rfl
  | a :: as => by
    have tail := filterMap_if p g as
    by_cases h : p a
    · simpa [List.filterMap_cons, List.filter_cons, h] using tail
    · simpa [List.filterMap_cons, List.filter_cons, h] using tail

theorem filterMap_if_map {α β : Type} (q : β → Bool) (f : α → β) :
    ∀ xs : List α,
      xs.filterMap (fun x => if q (f x) then some (f x) else none) =
      (xs.map f).filter q
  | [] => rfl
  | a :: as => by
    have tail := filterMap_if_map q f as
    by_cases h : q (f a)
    · simpa [List.filterMap_cons, List.filter_cons, h] using tail
    · simpa [List.filterMap_cons, List.filter_cons, h] using tail

theorem flatMap_skip_filter {α β : Type} (p : α → Bool) (f : α → List β)
    (l : List α) :
    l.flatMap (fun e => if p e then [] else f e) =
    (l.filter (fun e => !p e)).flatMap (fun e => if p e then [] else f e) := by
  induction l with
  | nil => rfl
  | cons a as ih =>
    by_cases h : p a <;> simp [List.filter_cons, h, ih]

theorem filter_self_idem {α : Type} (q : α → Bool) (l : List α) :
    (l.filter q).filter q = l.filter q := by
  induction l with
  | nil => rfl
  | cons a as ih => by_cases h : q a <;> simp [List.filter_cons, h, ih]

/-! ## Claim C8 — location-string parsing -/

/-- C8 counterexample: the location string `"123"` has a single
colon-delimited segment, which is also its final one and is purely numeric;
the claim would strip it as a line number, but the resolver only strips a
numeric final segment when there are at least two segments, so `"123"`
resolves with no line number and the whole string as the path. -/
theorem c8_numeric_single_segment_cex :
    allDigits ((jsSplit ':' "123").getLastD "") = true ∧
    resolveLoc "123" "" "" = { filePath := joinPath "" "" "123", line := none } := by
  exact ⟨by decide, rfl⟩

/-- C8 (amended): if a location string splits on `":"` into at least two
segments and the final one is purely numeric, the resolver strips it as the
line number and the remaining segments rejoined with `":"` form the path;
otherwise — including a single-segment all-numeric string — the entire
string is the path and no line number is produced. -/
theorem c8_resolveLoc_amended (loc root projectRoot : String) :
    ((jsSplit ':' loc).length > 1 ∧
        allDigits ((jsSplit ':' loc).getLastD "") = true →
      resolveLoc loc root projectRoot =
        { filePath :=
            joinPath projectRoot root (jsJoinCh ':' (jsSplit ':' loc).dropLast)
          line := some (digitsToNat ((jsSplit ':' loc).getLastD "")) }) ∧
    (¬((jsSplit ':' loc).length > 1 ∧
        allDigits ((jsSplit ':' loc).getLastD "") = true) →
      resolveLoc loc root projectRoot =
        { filePath := joinPath projectRoot root loc, line := none }) := by
  constructor
  · intro h
    simp only [resolveLoc]
    rw [if_pos h]
  · intro h
    simp only [resolveLoc]
    rw [if_neg h, jsJoinCh_jsSplit]

/-- C8 witness: both branches of the amended statement at concrete inputs. -/
theorem c8_resolveLoc_amended_witness :
    resolveLoc "a.ts:7" "src" "/p" =
      { filePath :=
          joinPath "/p" "src" (jsJoinCh ':' (jsSplit ':' "a.ts:7").dropLast)
        line := some (digitsToNat ((jsSplit ':' "a.ts:7").getLastD "")) } ∧
    resolveLoc "a.ts" "src" "/p" =
      { filePath := joinPath "/p" "src" "a.ts", line := none } :=
  ⟨(c8_resolveLoc_amended "a.ts:7" "src" "/p").1 (by exact ⟨by decide, by decide⟩),
   (c8_resolveLoc_amended "a.ts" "src" "/p").2 (by decide)⟩

/-! ## Claim C1 — co_change edges -/

/-- C1: for every `co_change` edge whose `from` and `to` ids both resolve in
the node table and whose source file is readable, the relational check
records exactly one PASS, regardless of the file's content. -/
theorem c1_co_change_pass (edge : Edge) (nodes : List (String × Node))
    (root projectRoot : String) (fs : Fs) (fromNode toNode : Node)
    (src : String)
    (hrel : edge.rel = "co_change")
    (hfrom : lookupNode nodes edge.fromId = some fromNode)
    (hto : lookupNode nodes edge.toId = some toNode)
    (hread : readSource fs
      (resolveLoc fromNode.loc root projectRoot).filePath = some src) :
    statuses (verifyEdge edge nodes root projectRoot fs) = [Status.PASS] := by
  simp [verifyEdge, hfrom, hto, hread, hrel, statuses]

/-- C1 witness: a concrete co_change edge over two present nodes and a
readable source file. -/
theorem c1_co_change_pass_witness :
    statuses (verifyEdge
      { fromId := "type:A", toId := "method:B", rel := "co_change" }
      [("type:A", { kind := "type", loc := "a.ts" }),
       ("method:B", { kind := "method", loc := "b.ts" })]
      "" "" [("//a.ts", "arbitrary content")]) = [Status.PASS] :=
  c1_co_change_pass _ _ _ _ _
    { kind := "type", loc := "a.ts" } { kind := "method", loc := "b.ts" }
    "arbitrary content" rfl rfl rfl (by decide)

/-! ## Claim C7 — exit status -/

/-- C7: the verify command's exit status is 0 iff the run produced no FAIL
record, and 1 iff it produced at least one; WARN records cannot change it. -/
theorem c7_exit_code (doc : Flowgraph) (projectRoot : String) (fs : Fs) :
    (verifyExitCode doc projectRoot fs = 0 ↔
      ∀ r ∈ runVerification doc projectRoot fs, r.status ≠ Status.FAIL) ∧
    (verifyExitCode doc projectRoot fs = 1 ↔
      ∃ r ∈ runVerification doc projectRoot fs, r.status = Status.FAIL) := by
  unfold verifyExitCode failCount
  by_cases h : ((runVerification doc projectRoot fs).filter
      (fun r => r.status == Status.FAIL)).length > 0
  · rw [if_pos h]
    have hne : (runVerification doc projectRoot fs).filter
        (fun r => r.status == Status.FAIL) ≠ [] := by
      intro he
      rw [he] at h
      simp at h
    obtain ⟨r, hr⟩ := List.exists_mem_of_ne_nil _ hne
    have hmem := List.mem_filter.mp hr
    have hfail : r.status = Status.FAIL := by simpa using hmem.2
    constructor
    · exact iff_of_false (by omega) (fun hall => hall r hmem.1 hfail)
    · exact iff_of_true rfl ⟨r, hmem.1, hfail⟩
  · rw [if_neg h]
    have hlen : ((runVerification doc projectRoot fs).filter
        (fun r => r.status == Status.FAIL)).length = 0 := by omega
    have hnil : (runVerification doc projectRoot fs).filter
        (fun r => r.status == Status.FAIL) = [] :=
      List.length_eq_zero.mp hlen
    have hall : ∀ r ∈ runVerification doc projectRoot fs,
        r.status ≠ Status.FAIL := by
      intro r hrm hfail
      have : r ∈ (runVerification doc projectRoot fs).filter
          (fun r => r.status == Status.FAIL) :=
        List.mem_filter.mpr ⟨hrm, by simp [hfail]⟩
      rw [hnil] at this
      exact absurd this (List.not_mem_nil r)
    constructor
    · exact iff_of_true rfl hall
    · exact iff_of_false (by omega) (fun ⟨r, hrm, hfail⟩ => hall r hrm hfail)

/-! ## Claim C4 — flow existence check -/

/-- Following the amended claim's words: the ids the existence check reports
as missing — each step's node id absent from the global node table, and each
non-terminal target of a branch-mapping `then` absent from it.  A
plain-string jump `then` value is never inspected. -/
def specMissingIds (nodes : List (String × Node)) (flow : Flow) :
    List String :=
  flow.steps.flatMap (fun step =>
    (if lookupNode nodes step.node = none then [step.node] else []) ++
    (match step.thenV with
     | .branch entries =>
       (entries.map Prod.snd).filter
         (fun t => nonTerminal t && (lookupNode nodes t).isNone)
     | .str _ => []))

theorem flowMissing_eq_spec (nodes : List (String × Node)) (flow : Flow) :
    flowMissing nodes flow = specMissingIds nodes flow := by
  unfold flowMissing specMissingIds
  congr 1
  funext step
  congr 1
  · by_cases h : lookupNode nodes step.node = none <;>
      simp [h, Option.isNone_iff_eq_none]
  · cases step.thenV with
    | str s => rfl
    | branch entries =>
      exact filterMap_if_map
        (fun t => nonTerminal t && (lookupNode nodes t).isNone) Prod.snd entries

theorem mem_flowWarns_status (name : String) (flow : Flow) :
    ∀ r ∈ flowWarns name flow, r.status = Status.WARN := by
  intro r hr
  unfold flowWarns at hr
  obtain ⟨step, _, hin⟩ := List.mem_flatMap.mp hr
  cases hv : step.thenV with
  | str s =>
    rw [hv] at hin
    exact absurd hin (List.not_mem_nil r)
  | branch entries =>
    rw [hv] at hin
    obtain ⟨ct, _, hct⟩ := List.mem_filterMap.mp hin
    by_cases hc : (nonTerminal ct.2 &&
        !(flow.steps.any (fun s => s.node == ct.2))) = true
    · rw [if_pos hc] at hct
      cases hct
      rfl
    · rw [if_neg hc] at hct
      exact absurd hct (by simp)

/-- C4 counterexample: a flow whose only step jumps to `"node:Ghost"` via a
plain-string `then`.  The target is absent from the global node table, yet
the existence check records PASS — no FAIL listing the missing id, because
only branch-mapping targets are inspected. -/
theorem c4_jump_target_not_checked_cex :
    lookupNode [("node:A", { kind := "custom", loc := "a" })] "node:Ghost"
      = none ∧
    verifyFlowOne [("node:A", { kind := "custom", loc := "a" })]
      ("f", { trigger := "t", steps := [⟨"node:A", .str "node:Ghost"⟩] }) =
      [Rec.mk .PASS "flow" "f" "All 1 step nodes exist",
       Rec.mk .PASS "flow" "f" "All branch targets reachable"] :=
  ⟨rfl, rfl⟩

/-- C4 (amended): per flow, the first record is the existence record: a
single FAIL listing, in order, every step node id absent from the global
node table and every non-terminal target of a branch-mapping `then` absent
from it (plain-string jump `then` values are not checked), or a PASS when
none is absent; and the flow's record block contains no other FAIL. -/
theorem c4_flow_existence_amended (nodes : List (String × Node))
    (name : String) (flow : Flow) :
    ((verifyFlowOne nodes (name, flow)).head? = some (
      if (specMissingIds nodes flow).isEmpty then
        Rec.mk .PASS "flow" name
          ("All " ++ Nat.repr flow.steps.length ++ " step nodes exist")
      else
        Rec.mk .FAIL "flow" name
          ("Missing nodes: " ++ joinWith ", " (specMissingIds nodes flow)))) ∧
    ((verifyFlowOne nodes (name, flow)).countP
        (fun r => r.status == Status.FAIL) =
      if (specMissingIds nodes flow).isEmpty then 0 else 1) := by
  have hwz : (flowWarns name flow ++
      (if (flowWarns name flow).isEmpty then
        [Rec.mk .PASS "flow" name "All branch targets reachable"]
       else [])).countP (fun r => r.status == Status.FAIL) = 0 := by
    rw [List.countP_eq_zero]
    intro r hr
    rcases List.mem_append.mp hr with hw | hp
    · have := mem_flowWarns_status name flow r hw
      simp [this]
    · by_cases he : (flowWarns name flow).isEmpty = true
      · rw [if_pos he] at hp
        have hr1 := List.mem_singleton.mp hp
        simp [hr1]
      · rw [if_neg he] at hp
        exact absurd hp (List.not_mem_nil r)
  simp only [verifyFlowOne, flowMissing_eq_spec]
  constructor
  · by_cases h : (specMissingIds nodes flow).isEmpty = true <;> simp [h]
  · by_cases h : (specMissingIds nodes flow).isEmpty = true
    · simp only [if_pos h, List.countP_cons, hwz]
      simp
    · simp only [if_neg h, List.countP_cons, hwz]
      simp

/-! ## Claim C5 — flow reachability check -/

/-- Following the amended claim's words: one WARN, naming the condition
label and its target, per branch-mapping entry whose non-terminal target is
not the `node` of any step of the same flow (the branching step itself
included). -/
def specReachWarns (name : String) (flow : Flow) : List Rec :=
  flow.steps.flatMap (fun step =>
    match step.thenV with
    | .branch entries =>
      ((entries.filter (fun ct =>
          nonTerminal ct.2 &&
            !(flow.steps.any (fun s => s.node == ct.2)))).map
        (fun ct => Rec.mk .WARN "flow" name
          ("'" ++ ct.1 ++ "' -> '" ++ ct.2 ++ "' not in step list")))
    | .str _ => [])

theorem flowWarns_eq_spec (name : String) (flow : Flow) :
    flowWarns name flow = specReachWarns name flow := by
  unfold flowWarns specReachWarns
  congr 1
  funext step
  cases step.thenV with
  | str s => rfl
  | branch entries =>
    exact filterMap_if
      (fun ct => nonTerminal ct.2 &&
        !(flow.steps.any (fun s => s.node == ct.2)))
      (fun ct => Rec.mk .WARN "flow" name
        ("'" ++ ct.1 ++ "' -> '" ++ ct.2 ++ "' not in step list"))
      entries

/-- C5 counterexample, refuting two parts of the claim at concrete inputs.
First, a one-step flow with no branching whose node is absent from the node
table: it does not "trivially PASS both checks" — the existence check FAILs
(only reachability passes trivially).  Second, a step branching to its own
node: the reachability pass accepts a target equal to the branching step's
own `node` (`flow.steps.some` includes the step itself), so no WARN is
emitted although no *other* step carries that node. -/
theorem c5_reach_cex :
    verifyFlowOne []
      ("f", { trigger := "t", steps := [⟨"node:A", .str "next"⟩] }) =
      [Rec.mk .FAIL "flow" "f" "Missing nodes: node:A",
       Rec.mk .PASS "flow" "f" "All branch targets reachable"] ∧
    verifyFlowOne [("node:A", { kind := "custom", loc := "a" })]
      ("g", { trigger := "t",
              steps := [⟨"node:A", .branch [("retry", "node:A")]⟩] }) =
      [Rec.mk .PASS "flow" "g" "All 1 step nodes exist",
       Rec.mk .PASS "flow" "g" "All branch targets reachable"] :=
  ⟨rfl, rfl⟩

/-- C5 (amended): after the existence record, a flow's record block is one
WARN — naming the condition label and the target — per branch-mapping entry
whose non-terminal target is not the `node` of some step of the same flow
(possibly the branching step itself), followed by a single reachability
PASS when there is no such violation.  A flow with no branching steps
trivially PASSes the reachability check (its existence check may still
FAIL). -/
theorem c5_flow_reachability_amended (nodes : List (String × Node))
    (name : String) (flow : Flow) :
    ((verifyFlowOne nodes (name, flow)).tail =
      specReachWarns name flow ++
        (if (specReachWarns name flow).isEmpty then
          [Rec.mk .PASS "flow" name "All branch targets reachable"]
         else [])) ∧
    (flow.steps.all (fun s => !isBranch s.thenV) = true →
      (verifyFlowOne nodes (name, flow)).tail =
        [Rec.mk .PASS "flow" name "All branch targets reachable"]) := by
  have htail : (verifyFlowOne nodes (name, flow)).tail =
      specReachWarns name flow ++
        (if (specReachWarns name flow).isEmpty then
          [Rec.mk .PASS "flow" name "All branch targets reachable"]
         else []) := by
    simp only [verifyFlowOne, flowWarns_eq_spec, List.tail_cons]
  refine ⟨htail, fun hnb => ?_⟩
  have hz : specReachWarns name flow = [] := by
    unfold specReachWarns
    rw [List.flatMap_eq_nil_iff]
    intro step hstep
    have := List.all_eq_true.mp hnb step hstep
    cases hv : step.thenV with
    | str s => rfl
    | branch entries =>
      rw [hv] at this
      simp [isBranch] at this
  rw [htail, hz]
  simp

/-! ## Claim C10 — comment edges -/

/-- C10: edges with а truthy `_comment` are skipped entirely: removing them
from the document changes neither the verification run's records nor any
impact-analysis outcome, and a successful impact report never lists such an
edge among its outgoing or incoming edges. -/
theorem c10_comment_edges_skipped (doc : Flowgraph) (projectRoot : String)
    (fs : Fs) (nodeId : String) :
    (runVerification doc projectRoot fs =
      runVerification
        { doc with edges := doc.edges.filter (fun e => !truthyStr e._comment) }
        projectRoot fs) ∧
    (runImpactAnalysis nodeId doc =
      runImpactAnalysis nodeId
        { doc with
            edges := doc.edges.filter (fun e => !truthyStr e._comment) }) ∧
    (∀ report, runImpactAnalysis nodeId doc = .found report →
      (∀ e ∈ report.outgoing, truthyStr e._comment = false) ∧
      (∀ e ∈ report.incoming, truthyStr e._comment = false)) := by
  obtain ⟨ns, es, fl, iv, mr⟩ := doc
  refine ⟨?_, ?_, ?_⟩
  · have hroot :
        (Flowgraph.mk ns (es.filter (fun e => !truthyStr e._comment))
          fl iv mr).root = (Flowgraph.mk ns es fl iv mr).root := rfl
    simp only [runVerification, edgePhase, hroot]
    rw [flatMap_skip_filter (fun e : Edge => truthyStr e._comment)]
  · cases hl : lookupNode ns nodeId with
    | none => simp only [runImpactAnalysis, hl]
    | some n => simp only [runImpactAnalysis, hl, filter_self_idem]
  · intro report h
    unfold runImpactAnalysis at h
    cases hl : lookupNode ns nodeId with
    | none =>
      rw [hl] at h
      exact absurd h (by simp)
    | some n =>
      rw [hl] at h
      simp only [ImpactResult.found.injEq] at h
      constructor
      · intro e he
        rw [← h] at he
        have hm := List.mem_filter.mp (List.mem_filter.mp he).1
        simpa using hm.2
      · intro e he
        rw [← h] at he
        have hm := List.mem_filter.mp (List.mem_filter.mp he).1
        simpa using hm.2

/-! ## Claim C6 — impact analysis -/

/-- Following the claim's words: the flow mentions the id as a step node or
as a branch-target value (a value of a mapping `then`). -/
def flowMentions (flow : Flow) (nodeId : String) : Bool :=
  flow.steps.any (fun s => s.node == nodeId) ||
  flow.steps.any (fun s =>
    match s.thenV with
    | .branch entries => entries.any (fun ct => ct.2 == nodeId)
    | .str _ => false)

/-- C6 counterexample: a present id whose only matching edge carries a
truthy `_comment`.  The claim says the outgoing result is exactly the edges
with `from == id`; the code first drops comment edges, so the report's
outgoing list is empty although such an edge exists. -/
theorem c6_comment_edge_outgoing_cex :
    runImpactAnalysis "type:A"
      { nodes := [("type:A", { kind := "type", loc := "a" }),
                  ("type:B", { kind := "type", loc := "b" })],
        edges := [⟨"type:A", "type:B", "co_change", none, some "x"⟩],
        flows := [], invariants := [] } =
      .found { outgoing := [], incoming := [], flowHits := [],
               invariantHits := [] } ∧
    [Edge.mk "type:A" "type:B" "co_change" none (some "x")].filter
        (fun e => e.fromId == "type:A") =
      [Edge.mk "type:A" "type:B" "co_change" none (some "x")] :=
  ⟨rfl, rfl⟩

/-- C6 (amended): impact analysis on an id absent from the node table
yields the not-found outcome listing exactly the known node ids, regardless
of any edge referencing the id as text; on a present id it returns exactly
the non-comment edges (those without a truthy `_comment`) with
`from == id` as outgoing and `to == id` as incoming, the flows where the id
appears as a step node or as a branch-target value, and the invariants
whose scope contains the id. -/
theorem c6_impact_amended (doc : Flowgraph) (nodeId : String) :
    (lookupNode doc.nodes nodeId = none →
      ∃ ids, runImpactAnalysis nodeId doc = .notFound ids ∧
        ∀ k, k ∈ ids ↔ k ∈ doc.nodes.map Prod.fst) ∧
    (∀ n, lookupNode doc.nodes nodeId = some n →
      ∃ report, runImpactAnalysis nodeId doc = .found report ∧
        report.outgoing = doc.edges.filter
          (fun e => !truthyStr e._comment && e.fromId == nodeId) ∧
        report.incoming = doc.edges.filter
          (fun e => !truthyStr e._comment && e.toId == nodeId) ∧
        report.flowHits.map FlowHit.name =
          (doc.flows.filter (fun nf => flowMentions nf.2 nodeId)).map
            Prod.fst ∧
        (∀ inv, inv ∈ report.invariantHits ↔
          inv ∈ doc.invariants ∧ nodeId ∈ inv.scope.getD [])) := by
  constructor
  · intro h
    refine ⟨(doc.nodes.map Prod.fst).mergeSort (fun a b => a ≤ b), ?_, ?_⟩
    · simp only [runImpactAnalysis, h]
    · intro k
      exact List.mem_mergeSort
  · intro n h
    have hrep : runImpactAnalysis nodeId doc = .found
        { outgoing := (doc.edges.filter
            (fun e => !truthyStr e._comment)).filter
              (fun e => e.fromId == nodeId)
          incoming := (doc.edges.filter
            (fun e => !truthyStr e._comment)).filter
              (fun e => e.toId == nodeId)
          flowHits := doc.flows.filterMap (fun nf =>
            let inFlow := nf.2.steps.any (fun s => s.node == nodeId)
            let branchTarget := nf.2.steps.any (fun s =>
              match s.thenV with
              | .branch entries => entries.any (fun ct => ct.2 == nodeId)
              | .str _ => false)
            if inFlow || branchTarget then
              some ⟨nf.1, nf.2, inFlow, branchTarget⟩
            else none)
          invariantHits := doc.invariants.filter (fun inv =>
            (inv.scope.getD []).contains nodeId) } := by
      simp only [runImpactAnalysis, h]
    refine ⟨_, hrep, ?_, ?_, ?_, ?_⟩
    · show (doc.edges.filter (fun e => !truthyStr e._comment)).filter
          (fun e => e.fromId == nodeId) =
        doc.edges.filter (fun e => !truthyStr e._comment && e.fromId == nodeId)
      rw [List.filter_filter]
      congr 1
      funext e
      exact Bool.and_comm _ _
    · show (doc.edges.filter (fun e => !truthyStr e._comment)).filter
          (fun e => e.toId == nodeId) =
        doc.edges.filter (fun e => !truthyStr e._comment && e.toId == nodeId)
      rw [List.filter_filter]
      congr 1
      funext e
      exact Bool.and_comm _ _
    · show (doc.flows.filterMap (fun nf =>
          if (nf.2.steps.any (fun s => s.node == nodeId) ||
              nf.2.steps.any (fun s =>
                match s.thenV with
                | .branch entries => entries.any (fun ct => ct.2 == nodeId)
                | .str _ => false)) then
            some (FlowHit.mk nf.1 nf.2
              (nf.2.steps.any (fun s => s.node == nodeId))
              (nf.2.steps.any (fun s =>
                match s.thenV with
                | .branch entries => entries.any (fun ct => ct.2 == nodeId)
                | .str _ => false)))
          else none)).map FlowHit.name =
        (doc.flows.filter (fun nf => flowMentions nf.2 nodeId)).map Prod.fst
      rw [filterMap_if
        (fun nf : String × Flow =>
          (nf.2.steps.any (fun s => s.node == nodeId) ||
            nf.2.steps.any (fun s =>
              match s.thenV with
              | .branch entries => entries.any (fun ct => ct.2 == nodeId)
              | .str _ => false)))
        (fun nf => FlowHit.mk nf.1 nf.2
          (nf.2.steps.any (fun s => s.node == nodeId))
          (nf.2.steps.any (fun s =>
            match s.thenV with
            | .branch entries => entries.any (fun ct => ct.2 == nodeId)
            | .str _ => false)))]
      rw [List.map_map]
      rfl
    · intro inv
      show inv ∈ doc.invariants.filter (fun inv =>
        (inv.scope.getD []).contains nodeId) ↔ _
      rw [List.mem_filter]
      constructor
      · rintro ⟨hm, hc⟩
        exact ⟨hm, by simpa using hc⟩
      · rintro ⟨hm, hc⟩
        exact ⟨hm, by simpa using hc⟩

/-- C6 witness: the not-found branch at a concrete document, and the found
branch at a document with one non-comment edge. -/
theorem c6_impact_amended_witness :
    (∃ ids, runImpactAnalysis "type:Ghost"
        { nodes := [("type:A", { kind := "type", loc := "a" })],
          edges := [⟨"type:A", "type:A", "calls", none, none⟩],
          flows := [], invariants := [] } = .notFound ids ∧
      ∀ k, k ∈ ids ↔ k ∈
        ({ nodes := [("type:A", { kind := "type", loc := "a" })],
           edges := [⟨"type:A", "type:A", "calls", none, none⟩],
           flows := [], invariants := [] } : Flowgraph).nodes.map Prod.fst) :=
  (c6_impact_amended _ "type:Ghost").1 rfl

/-! ## Claim C2 — optional-field checks -/

/-- Every record produced by the table verifier's fk pass is a WARN. -/
theorem mem_fkRecs_status (id source : String) (fks : List String) :
    ∀ r ∈ fks.filterMap (fun fk =>
      match fkTarget fk with
      | some t =>
        if includes source t then none
        else some (Rec.mk .WARN "structural" id
          ("FK to '" ++ t ++ "' not in DDL"))
      | none => none), r.status = Status.WARN := by
  intro r hr
  obtain ⟨fk, _, hfk⟩ := List.mem_filterMap.mp hr
  cases hft : fkTarget fk with
  | none =>
    simp only [hft] at hfk
    exact Option.noConfusion hfk
  | some t =>
    simp only [hft] at hfk
    by_cases hi : includes source t = true
    · rw [if_pos hi] at hfk
      simp at hfk
    · rw [if_neg hi] at hfk
      obtain rfl := Option.some.inj hfk
      rfl

/-- C2 counterexample: a table node whose `fk` entry references a name
absent from the DDL.  The optional-field check records WARN, not FAIL. -/
theorem c2_fk_warn_cex :
    verifyTableNode "table:tasks"
      { kind := "table", loc := "schema.sql",
        fk := some ["assignee -> users"] }
      "" "" [("//schema.sql", "CREATE TABLE tasks (id SERIAL)")] =
      [Rec.mk .PASS "structural" "table:tasks" "Table found",
       Rec.mk .WARN "structural" "table:tasks" "FK to 'users' not in DDL"] :=
  rfl

/-- C2 (amended): for type nodes the optional-field checks do record FAIL
for missing evidence — a declared `schema` token absent from the file, and
each declared enumeration value absent from the file — but the table
verifier's `fk` check records WARN, never FAIL, for a referenced name
absent from the DDL. -/
theorem c2_optional_field_checks_amended
    (tyId tbId root projectRoot : String) (tyNode tbNode : Node) (fs : Fs)
    (tySrc tbSrc sch v fkEntry fkName : String) (vs fks : List String) :
    (readSource fs (resolveLoc tyNode.loc root projectRoot).filePath =
        some tySrc →
     (typePatterns (replaceFirst tyId "type:")).any
        (fun p => rxTest p tySrc) = true →
     tyNode.schema = some sch → sch ≠ "" → includes tySrc sch = false →
     Rec.mk .FAIL "structural" tyId ("Schema '" ++ sch ++ "' not found") ∈
       verifyTypeNode tyId tyNode root projectRoot fs) ∧
    (readSource fs (resolveLoc tyNode.loc root projectRoot).filePath =
        some tySrc →
     (typePatterns (replaceFirst tyId "type:")).any
        (fun p => rxTest p tySrc) = true →
     tyNode.values = some vs → v ∈ vs → includes tySrc v = false →
     Rec.mk .FAIL "structural" tyId
         ("Enum value '" ++ v ++ "' not found") ∈
       verifyTypeNode tyId tyNode root projectRoot fs) ∧
    (readSource fs (resolveLoc tbNode.loc root projectRoot).filePath =
        some tbSrc →
     rxTest (tablePattern (replaceFirst tbId "table:")) tbSrc = true →
     tbNode.fk = some fks → fkEntry ∈ fks →
     fkTarget fkEntry = some fkName → includes tbSrc fkName = false →
     (Rec.mk .WARN "structural" tbId
         ("FK to '" ++ fkName ++ "' not in DDL") ∈
       verifyTableNode tbId tbNode root projectRoot fs) ∧
     (∀ r ∈ verifyTableNode tbId tbNode root projectRoot fs,
       r.status ≠ Status.FAIL)) := by
  refine ⟨?_, ?_, ?_⟩
  · intro hread hpat hsch hne hmiss
    have htr : truthyStr (some sch) = true := by
      simpa [truthyStr] using hne
    simp only [verifyTypeNode, hread, hpat, Bool.not_true, if_neg]
    simp only [hsch]
    refine List.mem_cons_of_mem _ (List.mem_append_left _ ?_)
    simp [htr, hmiss]
  · intro hread hpat hvals hv hmiss
    simp only [verifyTypeNode, hread, hpat, Bool.not_true, if_neg]
    simp only [hvals]
    refine List.mem_cons_of_mem _ (List.mem_append_right _ ?_)
    refine List.mem_filterMap.mpr ⟨v, hv, ?_⟩
    rw [hmiss]
    simp
  · intro hread hpat hfk hfe hft hmiss
    constructor
    · simp only [verifyTableNode, hread, hpat, Bool.not_true, if_neg]
      simp only [hfk]
      refine List.mem_cons_of_mem _ ?_
      refine List.mem_filterMap.mpr ⟨fkEntry, hfe, ?_⟩
      rw [hft]
      simp [hmiss]
    · intro r hr
      simp only [verifyTableNode, hread, hpat, Bool.not_true, if_neg] at hr
      simp only [hfk] at hr
      rcases List.mem_cons.mp hr with hhd | htl
      · rw [hhd]
        simp
      · have := mem_fkRecs_status tbId tbSrc fks r htl
        rw [this]
        simp

/-- C2 witness: a type node with a missing schema token and a missing
enumeration value, and a table node with a dangling fk reference. -/
theorem c2_optional_field_checks_amended_witness :
    (Rec.mk .FAIL "structural" "type:Foo" "Schema 'FooSchema' not found" ∈
      verifyTypeNode "type:Foo"
        { kind := "type", loc := "t.ts", schema := some "FooSchema",
          values := some ["AA", "BB"] }
        "" "" [("//t.ts", "interface Foo ;")]) ∧
    (Rec.mk .FAIL "structural" "type:Foo" "Enum value 'AA' not found" ∈
      verifyTypeNode "type:Foo"
        { kind := "type", loc := "t.ts", schema := some "FooSchema",
          values := some ["AA", "BB"] }
        "" "" [("//t.ts", "interface Foo ;")]) ∧
    (Rec.mk .WARN "structural" "table:tasks" "FK to 'users' not in DDL" ∈
      verifyTableNode "table:tasks"
        { kind := "table", loc := "schema.sql",
          fk := some ["assignee -> users"] }
        "" "" [("//schema.sql", "CREATE TABLE tasks (id SERIAL)")]) :=
  ⟨(c2_optional_field_checks_amended "type:Foo" "table:tasks" "" ""
      { kind := "type", loc := "t.ts", schema := some "FooSchema",
        values := some ["AA", "BB"] }
      { kind := "table", loc := "schema.sql",
        fk := some ["assignee -> users"] }
      [("//t.ts", "interface Foo ;"),
       ("//schema.sql", "CREATE TABLE tasks (id SERIAL)")]
      "interface Foo ;" "CREATE TABLE tasks (id SERIAL)"
      "FooSchema" "AA" "assignee -> users" "users"
      ["AA", "BB"] ["assignee -> users"]).1
      (by decide) (by decide) rfl (by decide) (by decide),
   (c2_optional_field_checks_amended "type:Foo" "table:tasks" "" ""
      { kind := "type", loc := "t.ts", schema := some "FooSchema",
        values := some ["AA", "BB"] }
      { kind := "table", loc := "schema.sql",
        fk := some ["assignee -> users"] }
      [("//t.ts", "interface Foo ;"),
       ("//schema.sql", "CREATE TABLE tasks (id SERIAL)")]
      "interface Foo ;" "CREATE TABLE tasks (id SERIAL)"
      "FooSchema" "AA" "assignee -> users" "users"
      ["AA", "BB"] ["assignee -> users"]).2.1
      (by decide) (by decide) rfl (by decide) (by decide),
   ((c2_optional_field_checks_amended "type:Foo" "table:tasks" "" ""
      { kind := "type", loc := "t.ts", schema := some "FooSchema",
        values := some ["AA", "BB"] }
      { kind := "table", loc := "schema.sql",
        fk := some ["assignee -> users"] }
      [("//t.ts", "interface Foo ;"),
       ("//schema.sql", "CREATE TABLE tasks (id SERIAL)")]
      "interface Foo ;" "CREATE TABLE tasks (id SERIAL)"
      "FooSchema" "AA" "assignee -> users" "users"
      ["AA", "BB"] ["assignee -> users"]).2.2
      (by decide) (by decide) rfl (by decide) (by decide)
      (by decide)).1⟩

/-! ## Claim C3 — line-window downgrade -/

/-- A DDL file whose `CREATE TABLE` statement sits on line 40. -/
def c3TableSrc : String :=
  String.mk (List.replicate 39 '\n') ++ "CREATE TABLE tasks (id INT)"

/-- C3 counterexample: a table node declaring line 1 while its
`CREATE TABLE` matches only on line 40 — far outside the ±15 window the
claim prescribes for "most kinds".  The claim says the existence result is
downgraded to WARN; the table verifier never consults the line and records
a plain PASS. -/
theorem c3_table_no_window_cex :
    rxTest (tablePattern "tasks") c3TableSrc = true ∧
    rxTest (tablePattern "tasks") (getRegion c3TableSrc 1 15) = false ∧
    (resolveLoc "schema.sql:1" "" "").line = some 1 ∧
    verifyTableNode "table:tasks" { kind := "table", loc := "schema.sql:1" }
      "" "" [("//schema.sql", c3TableSrc)] =
      [Rec.mk .PASS "structural" "table:tasks" "Table found"] := by
  refine ⟨by decide, by decide, rfl, rfl⟩

/-- C3 (amended): only the type and method verifiers (window ±5 lines) and
the endpoint verifier (window ±10 lines) perform the line-window check, and
only when the resolved line number is nonzero; for them, a required-pattern
match somewhere in the file but not within the window yields WARN
("found but not near declared line") instead of PASS.  The table and event
verifiers ignore the declared line entirely: a file-wide match yields PASS
regardless of where it sits. -/
theorem c3_line_window_amended (root projectRoot : String) (fs : Fs)
    (tyId myId epId tbId evId : String) (tyN myN epN tbN evN : Node)
    (tySrc mySrc epSrc tbSrc evSrc : String) (tyLn myLn epLn epSpace : Nat) :
    (readSource fs (resolveLoc tyN.loc root projectRoot).filePath =
        some tySrc →
     (resolveLoc tyN.loc root projectRoot).line = some tyLn → tyLn ≠ 0 →
     (typePatterns (replaceFirst tyId "type:")).any
        (fun p => rxTest p tySrc) = true →
     (typePatterns (replaceFirst tyId "type:")).any
        (fun p => rxTest p (getRegion tySrc tyLn 5)) = false →
     (verifyTypeNode tyId tyN root projectRoot fs).head? =
       some (Rec.mk .WARN "structural" tyId
         ("Found in file but not near line " ++ Nat.repr tyLn))) ∧
    (readSource fs (resolveLoc myN.loc root projectRoot).filePath =
        some mySrc →
     (resolveLoc myN.loc root projectRoot).line = some myLn → myLn ≠ 0 →
     (methodPatterns
        ((jsSplit '.' (replaceFirst myId "method:")).getLastD "")).any
        (fun p => rxTest p mySrc) = true →
     (methodPatterns
        ((jsSplit '.' (replaceFirst myId "method:")).getLastD "")).any
        (fun p => rxTest p (getRegion mySrc myLn 5)) = false →
     verifyMethodNode myId myN root projectRoot fs =
       [Rec.mk .WARN "structural" myId
         ("Method found but not near line " ++ Nat.repr myLn)]) ∧
    (readSource fs (resolveLoc epN.loc root projectRoot).filePath =
        some epSrc →
     (resolveLoc epN.loc root projectRoot).line = some epLn → epLn ≠ 0 →
     indexOfChar ' ' (replaceFirst epId "endpoint:") = some epSpace →
     (routePatterns
        (toLowerStr (String.mk
          ((replaceFirst epId "endpoint:").data.take epSpace)))
        (String.mk
          ((replaceFirst epId "endpoint:").data.drop (epSpace + 1)))).any
        (fun p => rxTest p epSrc) = true →
     (routePatterns
        (toLowerStr (String.mk
          ((replaceFirst epId "endpoint:").data.take epSpace)))
        (String.mk
          ((replaceFirst epId "endpoint:").data.drop (epSpace + 1)))).any
        (fun p => rxTest p (getRegion epSrc epLn 10)) = false →
     verifyEndpointNode epId epN root projectRoot fs =
       [Rec.mk .WARN "structural" epId
         ("Route in file but not near line " ++ Nat.repr epLn)]) ∧
    (readSource fs (resolveLoc tbN.loc root projectRoot).filePath =
        some tbSrc →
     rxTest (tablePattern (replaceFirst tbId "table:")) tbSrc = true →
     (verifyTableNode tbId tbN root projectRoot fs).head? =
       some (Rec.mk .PASS "structural" tbId "Table found")) ∧
    (readSource fs (resolveLoc evN.loc root projectRoot).filePath =
        some evSrc →
     (rxTest (eventQuotedPattern (replaceFirst evId "event:")) evSrc ||
        includes evSrc (replaceFirst evId "event:")) = true →
     verifyEventNode evId evN root projectRoot fs =
       [Rec.mk .PASS "structural" evId
         ("Event '" ++ replaceFirst evId "event:" ++ "' found")]) := by
  refine ⟨?_, ?_, ?_, ?_, ?_⟩
  · intro hread hline hnz hpat hreg
    have hlt : lineTruthy (some tyLn) = true := by
      simpa [lineTruthy] using hnz
    simp only [verifyTypeNode, hread, hpat, Bool.not_true, if_neg, hline,
      hlt, if_pos, Option.getD_some, hreg, List.head?_cons]
    simp [hreg]
  · intro hread hline hnz hpat hreg
    have hlt : lineTruthy (some myLn) = true := by
      simpa [lineTruthy] using hnz
    simp only [verifyMethodNode, hread, hpat, Bool.not_true, if_neg, hline,
      hlt, if_pos, Option.getD_some]
    rw [hreg]
    simp
  · intro hread hline hnz hsp hpat hreg
    have hlt : lineTruthy (some epLn) = true := by
      simpa [lineTruthy] using hnz
    simp only [verifyEndpointNode, hread, hsp, hpat, hline, hlt, if_pos,
      Option.getD_some]
    simp [hreg]
  · intro hread hpat
    simp only [verifyTableNode, hread, hpat, Bool.not_true, if_neg]
    rfl
  · intro hread hcond
    simp only [verifyEventNode, hread, hcond, if_pos]

/-- C3 witness: concrete type, method and endpoint nodes whose declared
line 1 is far from the match (WARN), and table and event nodes whose
declared lines are equally far (PASS — no window check). -/
theorem c3_line_window_amended_witness :
    ((verifyTypeNode "type:Foo" { kind := "type", loc := "t.ts:1" } "" ""
        [("//t.ts", "\n\n\n\n\n\ninterface Foo ;")]).head? =
      some (Rec.mk .WARN "structural" "type:Foo"
        ("Found in file but not near line " ++ Nat.repr 1))) ∧
    (verifyMethodNode "method:create" { kind := "method", loc := "m.py:1" }
        "" "" [("//m.py", "\n\n\n\n\n\ndef create(x):")] =
      [Rec.mk .WARN "structural" "method:create"
        ("Method found but not near line " ++ Nat.repr 1)]) ∧
    (verifyEndpointNode "endpoint:GET /x"
        { kind := "endpoint", loc := "r.ts:1" } "" ""
        [("//r.ts", "\n\n\n\n\n\n\n\n\n\napp.get('/x')")] =
      [Rec.mk .WARN "structural" "endpoint:GET /x"
        ("Route in file but not near line " ++ Nat.repr 1)]) ∧
    ((verifyTableNode "table:tasks"
        { kind := "table", loc := "schema.sql:1" } "" ""
        [("//schema.sql", c3TableSrc)]).head? =
      some (Rec.mk .PASS "structural" "table:tasks" "Table found")) ∧
    (verifyEventNode "event:ev" { kind := "event", loc := "e.ts:1" } "" ""
        [("//e.ts", "\n\n\n\n\n\n\n\n\n\n\n\n\n\n\n\n\n\n\nemit('ev')")] =
      [Rec.mk .PASS "structural" "event:ev" "Event 'ev' found"]) := by
  refine ⟨?_, ?_, ?_, ?_, ?_⟩
  · exact (c3_line_window_amended "" "" [("//t.ts", "\n\n\n\n\n\ninterface Foo ;")]
      "type:Foo" "method:create" "endpoint:GET /x" "table:tasks" "event:ev"
      { kind := "type", loc := "t.ts:1" } { kind := "method", loc := "m.py:1" }
      { kind := "endpoint", loc := "r.ts:1" }
      { kind := "table", loc := "schema.sql:1" }
      { kind := "event", loc := "e.ts:1" }
      "\n\n\n\n\n\ninterface Foo ;" "" "" "" "" 1 1 1 3).1
      (by decide) (by decide) (by decide) (by decide) (by decide)
  · exact (c3_line_window_amended "" ""
      [("//m.py", "\n\n\n\n\n\ndef create(x):")]
      "type:Foo" "method:create" "endpoint:GET /x" "table:tasks" "event:ev"
      { kind := "type", loc := "t.ts:1" } { kind := "method", loc := "m.py:1" }
      { kind := "endpoint", loc := "r.ts:1" }
      { kind := "table", loc := "schema.sql:1" }
      { kind := "event", loc := "e.ts:1" }
      "" "\n\n\n\n\n\ndef create(x):" "" "" "" 1 1 1 3).2.1
      (by decide) (by decide) (by decide) (by decide) (by decide)
  · exact (c3_line_window_amended "" ""
      [("//r.ts", "\n\n\n\n\n\n\n\n\n\napp.get('/x')")]
      "type:Foo" "method:create" "endpoint:GET /x" "table:tasks" "event:ev"
      { kind := "type", loc := "t.ts:1" } { kind := "method", loc := "m.py:1" }
      { kind := "endpoint", loc := "r.ts:1" }
      { kind := "table", loc := "schema.sql:1" }
      { kind := "event", loc := "e.ts:1" }
      "" "" "\n\n\n\n\n\n\n\n\n\napp.get('/x')" "" "" 1 1 1 3).2.2.1
      (by decide) (by decide) (by decide) (by decide) (by decide) (by decide)
  · exact (c3_line_window_amended "" "" [("//schema.sql", c3TableSrc)]
      "type:Foo" "method:create" "endpoint:GET /x" "table:tasks" "event:ev"
      { kind := "type", loc := "t.ts:1" } { kind := "method", loc := "m.py:1" }
      { kind := "endpoint", loc := "r.ts:1" }
      { kind := "table", loc := "schema.sql:1" }
      { kind := "event", loc := "e.ts:1" }
      "" "" "" c3TableSrc "" 1 1 1 3).2.2.2.1
      (by decide) (by decide)
  · exact (c3_line_window_amended "" ""
      [("//e.ts", "\n\n\n\n\n\n\n\n\n\n\n\n\n\n\n\n\n\n\nemit('ev')")]
      "type:Foo" "method:create" "endpoint:GET /x" "table:tasks" "event:ev"
      { kind := "type", loc := "t.ts:1" } { kind := "method", loc := "m.py:1" }
      { kind := "endpoint", loc := "r.ts:1" }
      { kind := "table", loc := "schema.sql:1" }
      { kind := "event", loc := "e.ts:1" }
      "" "" "" ""
      "\n\n\n\n\n\n\n\n\n\n\n\n\n\n\n\n\n\n\nemit('ev')" 1 1 1 3).2.2.2.2
      (by decide) (by decide)

/-! ## Claim C9 — event nodes -/

theorem litRun_decomp (cs : List Char) (prev : Option Char)
    (rest : List Char) (st : Option Char × List Char)
    (h : litRun false cs prev rest = some st) : rest = cs ++ st.2 := by
  induction cs generalizing prev rest with
  | nil =>
    simp only [litRun, Option.some.injEq] at h
    rw [← h]
    rfl
  | cons c cs ih =>
    cases rest with
    | nil => exact absurd h (by simp [litRun])
    | cons x xs =>
      simp only [litRun] at h
      by_cases hc : charEqCI false c x = true
      · rw [if_pos hc] at h
        have hx := ih _ _ h
        have hcx : c = x := by simpa [charEqCI] using hc
        subst hcx
        rw [List.cons_append, hx]
      · rw [if_neg hc] at h
        exact absurd h (by simp)

theorem run_cls_decomp {f : Char → Bool} {prev : Option Char}
    {rest : List Char} {st : Option Char × List Char}
    (h : st ∈ Rx.run (.cls f) prev rest) :
    ∃ c cs, rest = c :: cs ∧ f c = true ∧ st = (some c, cs) := by
  cases rest with
  | nil => exact absurd h (by simp [Rx.run])
  | cons c cs =>
    simp only [Rx.run] at h
    by_cases hf : f c = true
    · rw [if_pos hf] at h
      exact ⟨c, cs, rfl, hf, List.mem_singleton.mp h⟩
    · rw [if_neg hf] at h
      exact absurd h (List.not_mem_nil st)

theorem run_seq_decomp {a b : Rx} {prev : Option Char} {rest : List Char}
    {st : Option Char × List Char} (h : st ∈ Rx.run (.seq a b) prev rest) :
    ∃ mid, mid ∈ Rx.run a prev rest ∧ st ∈ Rx.run b mid.1 mid.2 := by
  simp only [Rx.run] at h
  exact List.mem_flatMap.mp h

theorem run_lit_decomp {s : String} {prev : Option Char} {rest : List Char}
    {st : Option Char × List Char}
    (h : st ∈ Rx.run (.lit s false) prev rest) : rest = s.data ++ st.2 := by
  simp only [Rx.run] at h
  cases hr : litRun false s.data prev rest with
  | none =>
    rw [hr] at h
    exact absurd h (by simp)
  | some st' =>
    rw [hr] at h
    have hst : st = st' := by simpa using h
    subst hst
    exact litRun_decomp _ _ _ _ hr

theorem rxSearch_exists_suffix (r : Rx) :
    ∀ (l : List Char) (prev : Option Char), rxSearch r prev l = true →
      ∃ pre suf pv, l = pre ++ suf ∧ Rx.run r pv suf ≠ [] := by
  intro l
  induction l with
  | nil =>
    intro prev h
    simp only [rxSearch] at h
    exact ⟨[], [], prev, rfl, by simpa using h⟩
  | cons c cs ih =>
    intro prev h
    simp only [rxSearch, Bool.or_eq_true] at h
    rcases h with h | h
    · exact ⟨[], c :: cs, prev, rfl, by simpa using h⟩
    · obtain ⟨pre, suf, pv, hsplit, hrun⟩ := ih (some c) h
      exact ⟨c :: pre, suf, pv, by rw [List.cons_append, ← hsplit], hrun⟩

theorem includesAux_append (sub pre post : List Char) :
    includesAux sub (pre ++ (sub ++ post)) = true := by
  induction pre with
  | nil =>
    cases hs : sub with
    | nil => cases post <;> simp [includesAux, List.isPrefixOf]
    | cons c cs =>
      have hpre : (c :: cs).isPrefixOf ((c :: cs) ++ post) = true := by
        rw [List.isPrefixOf_iff_prefix]
        exact List.prefix_append _ _
      simp only [List.nil_append]
      rw [← hs]
      rw [hs, List.cons_append]
      simp only [includesAux]
      rw [← List.cons_append, hpre]
      simp
  | cons c pre ih =>
    simp only [List.cons_append, includesAux, Bool.or_eq_true]
    exact Or.inr ih

/-- A quoted-literal match implies plain substring presence: the verifier's
second `has(source, eventName)` check subsumes its first. -/
theorem eventQuoted_implies_includes (name src : String)
    (h : rxTest (eventQuotedPattern name) src = true) :
    includes src name = true := by
  obtain ⟨pre, suf, pv, hsplit, hrun⟩ :=
    rxSearch_exists_suffix _ src.data none h
  obtain ⟨st, hst⟩ := List.exists_mem_of_ne_nil _ hrun
  obtain ⟨mid1, hm1, hrest⟩ := run_seq_decomp hst
  obtain ⟨c1, cs1, hsuf, _, hmid1⟩ := run_cls_decomp hm1
  obtain ⟨mid2, hm2, _⟩ := run_seq_decomp hrest
  have hlit := run_lit_decomp hm2
  unfold includes
  rw [hsplit, hsuf, hmid1] at *
  simp only at hlit
  rw [hlit]
  have : pre ++ c1 :: (name.data ++ mid2.2) =
      (pre ++ [c1]) ++ (name.data ++ mid2.2) := by simp
  rw [this]
  exact includesAux_append _ _ _

/-- Spec-side, following the claim's words: the event name occurs as a
standalone bare token — an occurrence preceded and followed by nothing or
by a non-word character. -/
def notWordAt : Option Char → Bool
  | some c => !isWordChar c
  | none => true

def bareTokenAux (sub : List Char) (prev : Option Char) :
    List Char → Bool
  | [] => sub.isPrefixOf [] && notWordAt prev
  | c :: cs =>
    (sub.isPrefixOf (c :: cs) && notWordAt prev &&
      notWordAt ((c :: cs).drop sub.length).head?) ||
    bareTokenAux sub (some c) cs

def presentAsBareToken (src name : String) : Bool :=
  bareTokenAux name.data none src.data

/-- C9 counterexample: the file `"username = 1"` contains the event name
`"user"` neither as a quoted literal nor as a bare token, yet the event node
check records PASS, because the fallback check is plain substring
containment (`source.includes`). -/
theorem c9_substring_not_token_cex :
    verifyEventNode "event:user" { kind := "event", loc := "f.js" } "" ""
      [("//f.js", "username = 1")] =
      [Rec.mk .PASS "structural" "event:user" "Event 'user' found"] ∧
    rxTest (eventQuotedPattern "user") "username = 1" = false ∧
    presentAsBareToken "username = 1" "user" = false := by
  refine ⟨rfl, by decide, by decide⟩

/-- C9 (amended): an event node with a readable resolved file passes its
existence check iff the event name occurs as a substring of the file — the
quoted-literal alternative is subsumed by substring containment — and
records FAIL iff it does not. -/
theorem c9_event_substring_amended (id : String) (node : Node)
    (root projectRoot : String) (fs : Fs) (src : String)
    (hread : readSource fs
      (resolveLoc node.loc root projectRoot).filePath = some src) :
    (statuses (verifyEventNode id node root projectRoot fs) = [Status.PASS] ↔
      includes src (replaceFirst id "event:") = true) ∧
    (statuses (verifyEventNode id node root projectRoot fs) = [Status.FAIL] ↔
      includes src (replaceFirst id "event:") = false) := by
  by_cases hinc : includes src (replaceFirst id "event:") = true
  · have hcond : (rxTest (eventQuotedPattern (replaceFirst id "event:")) src ||
        includes src (replaceFirst id "event:")) = true := by
      rw [hinc]
      simp
    constructor
    · refine iff_of_true ?_ hinc
      simp [verifyEventNode, hread, hcond, statuses]
    · refine iff_of_false ?_ (by simp [hinc])
      simp [verifyEventNode, hread, hcond, statuses]
  · have hq : rxTest (eventQuotedPattern (replaceFirst id "event:")) src
        = false := by
      by_cases hqt : rxTest (eventQuotedPattern (replaceFirst id "event:")) src
          = true
      · exact absurd (eventQuoted_implies_includes _ _ hqt) hinc
      · simpa using hqt
    have hcond : (rxTest (eventQuotedPattern (replaceFirst id "event:")) src ||
        includes src (replaceFirst id "event:")) = false := by
      rw [hq]
      simpa using hinc
    constructor
    · refine iff_of_false ?_ hinc
      simp [verifyEventNode, hread, hcond, statuses]
    · refine iff_of_true ?_ (by simpa using hinc)
      simp [verifyEventNode, hread, hcond, statuses]

/-- C9 witness: a concrete event node over a readable file that contains
the name. -/
theorem c9_event_substring_amended_witness :
    statuses (verifyEventNode "event:user"
      { kind := "event", loc := "f.js" } "" ""
      [("//f.js", "emit('user')")]) = [Status.PASS] ↔
    includes "emit('user')" (replaceFirst "event:user" "event:") = true :=
  (c9_event_substring_amended "event:user" { kind := "event", loc := "f.js" }
    "" "" [("//f.js", "emit('user')")] "emit('user')" (by decide)).1

/-- C10 witness: a document whose one edge carries a `_comment`. -/
theorem c10_comment_edges_skipped_witness :
    runVerification
      { nodes := [], edges := [⟨"type:A", "type:B", "calls", none, some "x"⟩],
        flows := [], invariants := [] } "" [] =
    runVerification
      { nodes := [],
        edges := [Edge.mk "type:A" "type:B" "calls" none (some "x")].filter
          (fun e => !truthyStr e._comment),
        flows := [], invariants := [] } "" [] :=
  (c10_comment_edges_skipped
    { nodes := [], edges := [⟨"type:A", "type:B", "calls", none, some "x"⟩],
      flows := [], invariants := [] } "" [] "type:A").1

end FG
